import Mathlib

/- Shallow embedding of the pm-node agent (src/index.js).

   The agent keeps a mutable list `this.processes` of process records, a
   raw socket / multiplexer / rpc triple forming the control session, and
   a ping timer.  Machine-level collaborators (child_process.spawn, the
   stream multiplexer, the usage lookup) are modelled as parameters: the
   launch outcome of `spawn`, the identifiers of sockets and channels,
   and the per-pid usage lookup function.  Promise settlement and
   outbound calls are modelled as explicit result values and ordered
   effect lists, so that "resolved with an Error value" (new Q(err)) and
   "rejected" (deferred.reject) stay distinguishable, exactly as in the
   source. -/

/-- JS truthiness of an optional string option: an absent option and the
empty string are both falsy (`if (!opts.command)`, `opts.name || ...`). -/
def truthyStr : Option String → Bool
  | none => false
  | some s => s ≠ ""

/-- Model of `path.basename`, restricted to what the agent uses: the last
slash-separated component of the command path (scanning the characters,
restarting after every `/`). -/
def basename (s : String) : String :=
  String.mk (s.data.foldl (fun acc c => if c = '/' then [] else acc ++ [c]) [])

/-- One entry of `this.processes`.  `_proc` is the exclusively owned OS
process handle (modelled by an identifier), present while the process is
live; `protected` is the flag that exempts a record from `kill`;
`promise` is the completion mode stored by `spawn`; `code`/`error` are
the fields added by the close handler (`code := none` models the field
being absent, or a `null` exit code after a signal-termination close). -/
structure ProcInfo where
  name : String
  pid : Nat
  _proc : Option Nat := none
  «protected» : Bool := false
  coreId : Option String := none
  promise : Option String := none
  code : Option Int := none
  error : Option String := none
deriving DecidableEq

/-- return a copy of all public properties of a procInfo object: the
copy drops the `_proc` handle and keeps everything else. -/
def toPublicProcInfo (procInfo : ProcInfo) : ProcInfo :=
  { procInfo with _proc := none }

/-- The agent state: `this.serverHost`, `this.serverPort`,
`this.processes`, and the session fields `this.rawSocket`, `this.mux`,
`this.rpc` (identifiers, `none` = null/undefined), plus the ping
interval timer handle. -/
structure PMNode where
  serverHost : String
  serverPort : Nat
  processes : List ProcInfo
  rawSocket : Option Nat := none
  mux : Option Nat := none
  rpc : Option Nat := none
  pingInterval : Option Nat := none
deriving DecidableEq

/-- The own protected record of the agent, pushed by the constructor
with name pm-node, the pid and handle of the agent process, and the
protected flag set. -/
def selfRecord (selfPid : Nat) : ProcInfo :=
  { name := "pm-node", pid := selfPid, _proc := some selfPid, «protected» := true }

/-- Constructor options. -/
structure InitOpts where
  serverHost : String
  serverPort : Nat
deriving DecidableEq

/-- The `PMNode(opts)` constructor: stores host and port and initialises
the registry with the single protected self record. -/
def PMNode.init (opts : InitOpts) (selfPid : Nat) : PMNode :=
  { serverHost := opts.serverHost, serverPort := opts.serverPort,
    processes := [selfRecord selfPid] }

/-- Options of `connect` after the `_.extend` defaulting. -/
structure ConnectOpts where
  ping : Option Bool := none
  pingInterval : Option Nat := none
deriving DecidableEq

/-- What `connect` returns: either a promise already resolved with an
Error VALUE (`new Q(new Error(...))` — note: resolved, not rejected), or
a pending deferred tied to the freshly created socket. -/
inductive ConnectResult where
  | fulfilledError (msg : String)
  | pendingTo (sock : Nat)
deriving DecidableEq

structure ConnectOut where
  state : PMNode
  result : ConnectResult
deriving DecidableEq

/-- Embedding of `PMNode.prototype.connect`: early-returns a promise RESOLVED with an
Error value when `this.rpc || this.rawSocket` is already set (no socket
is created, no state is touched); otherwise creates the socket, sets up
the ping interval once (`if (!this.pingInterval && opts.ping)`), and
returns the pending deferred. -/
def PMNode.connect (st : PMNode) (opts : ConnectOpts) (sockId : Nat) : ConnectOut :=
  if st.rpc.isSome || st.rawSocket.isSome then
    { state := st, result := .fulfilledError "client is conencted" }
  else if st.pingInterval.isNone && opts.ping.getD true then
    { state := { st with rawSocket := some sockId, pingInterval := some (opts.pingInterval.getD 30000) },
      result := .pendingTo sockId }
  else
    { state := { st with rawSocket := some sockId }, result := .pendingTo sockId }

/-- Embedding of `_onRawSocketConnection`: guards against a missing socket or an
already-present mux/rpc (each an early debug return), then installs the
multiplexer and the RPC channel. -/
def PMNode._onRawSocketConnection (st : PMNode) (muxId rpcId : Nat) : PMNode :=
  if st.rawSocket = none then st
  else if st.mux.isSome then st
  else if st.rpc.isSome then st
  else { st with mux := some muxId, rpc := some rpcId }

/-- Embedding of `_onRawSocketClose`: tears the session down, clearing mux, rpc and
socket together. -/
def PMNode._onRawSocketClose (st : PMNode) : PMNode :=
  { st with mux := none, rpc := none, rawSocket := none }

/-- Embedding of `_onMuxError`: same teardown as socket close. -/
def PMNode._onMuxError (st : PMNode) : PMNode :=
  { st with mux := none, rpc := none, rawSocket := none }

/-- Observable side effects of the process-supervision code, in program
order: registry removal (with whether the record was found), the
`onProcessEnd` call over a captured rpc channel (or its skip when the
captured channel is null, or the logged failure of the call), the
settlement of the spawn deferred, a delivered kill signal, and the
nextTick creation progress notification. -/
inductive Effect where
  | regRemove (found : Bool)
  | notifySent (chan : Nat) (payload : ProcInfo)
  | notifyFailLogged
  | notifySkipped
  | settleResolve (payload : ProcInfo)
  | settleReject (msg : String)
  | signalSent (handle : Nat) (signal : String)
  | notifyCreated (payload : ProcInfo)
deriving DecidableEq

/-- Options of `spawn` before the `_.extend` defaulting (`args` defaults
to `[]`, `promise` to `"creation"`). -/
structure SpawnOpts where
  command : Option String := none
  args : List String := []
  name : Option String := none
  coreId : Option String := none
  promise : Option String := none
  stdout : Option String := none
  stderr : Option String := none
deriving DecidableEq

/-- Outcome of the `child_process.spawn` collaborator: a synchronous
throw (caught by the try/catch), or a live process with its pid. -/
inductive LaunchOutcome where
  | throws (msg : String)
  | ok (pid : Nat)
deriving DecidableEq

/-- State of the returned promise at the time `spawn` returns. -/
inductive PromiseState where
  | fulfilledInfo (info : ProcInfo)
  | pending
deriving DecidableEq

/-- What a call to `spawn` does: an early return of a promise RESOLVED
with an Error value (validation or launch failure — note: resolved, not
rejected, and no close handler exists); a normal return carrying the
registered record, the rpc channel captured at spawn time for the close
handler, the stored mode and the promise state; or a synchronous
exception escaping `spawn` (the `this.mux.createStream` dereference with
no mux) after the record was pushed and the handlers attached. -/
inductive SpawnResult where
  | fulfilledError (msg : String)
  | ret (rec : ProcInfo) (capturedRpc : Option Nat) (mode : String) (promise : PromiseState)
  | thrown (msg : String) (rec : ProcInfo) (capturedRpc : Option Nat) (mode : String)
deriving DecidableEq

structure SpawnOut where
  state : PMNode
  result : SpawnResult
deriving DecidableEq

/-- The procInfo object `spawn` pushes on a successful launch:
`{_proc: proc, coreId: opts.coreId, name: name, pid: proc.pid,
promise: opts.promise}` with `name = opts.name || basename(command)`. -/
def spawnRecord (opts : SpawnOpts) (pid : Nat) : ProcInfo :=
  { _proc := some pid,
    coreId := opts.coreId,
    name := if truthyStr opts.name then opts.name.getD "" else basename (opts.command.getD ""),
    pid := pid,
    promise := some (opts.promise.getD "creation") }

/-- Embedding of `PMNode.prototype.spawn`.  In source order: validate the command and
the completion mode (each failure returns a promise RESOLVED with an
Error value); launch, where a synchronous throw is caught and likewise
returned as a resolved promise; push the record; capture `this.rpc`;
attach the error and close observers; then either resolve now with the
public view (`creation`) or, for `execution`, pipe the requested std
streams — dereferencing `this.mux`, which throws out of `spawn` when no
session multiplexer exists — and stay pending until close. -/
def PMNode.spawn (st : PMNode) (opts : SpawnOpts) (launch : LaunchOutcome) : SpawnOut :=
  let mode := opts.promise.getD "creation"
  if truthyStr opts.command then
    if mode = "creation" ∨ mode = "execution" then
      match launch with
      | .throws msg => { state := st, result := .fulfilledError msg }
      | .ok pid =>
        let procInfo := spawnRecord opts pid
        let st1 := { st with processes := st.processes ++ [procInfo] }
        let masterRpc := st.rpc
        if mode = "creation" then
          { state := st1,
            result := .ret procInfo masterRpc mode (.fulfilledInfo (toPublicProcInfo procInfo)) }
        else if truthyStr opts.stdout ∧ st1.mux = none then
          { state := st1,
            result := .thrown "cannot call createStream of null" procInfo masterRpc mode }
        else if truthyStr opts.stderr ∧ st1.mux = none then
          { state := st1,
            result := .thrown "cannot call createStream of null" procInfo masterRpc mode }
        else
          { state := st1, result := .ret procInfo masterRpc mode .pending }
    else
      { state := st, result := .fulfilledError ("promise type " ++ mode ++ " is not supported") }
  else
    { state := st, result := .fulfilledError "command is required" }

/-- Model of `processes.indexOf(procInfo)` followed by `splice(index, 1)`: remove the first
occurrence of the record from the list (JS removes by object identity;
every spawn creates a fresh object, so first-occurrence removal agrees). -/
def removeFirst (a : ProcInfo) : List ProcInfo → List ProcInfo
  | [] => []
  | x :: xs => if x = a then xs else x :: removeFirst a xs

/-- Model of `processes.indexOf(procInfo) > -1`: whether the record occurs in the
registry list. -/
def foundIn (a : ProcInfo) : List ProcInfo → Bool
  | [] => false
  | x :: xs => if x = a then true else foundIn a xs

/-- Model of `_.findWhere` on `this.processes` by pid: the first record
whose pid matches. -/
def findWhere (pid : Nat) : List ProcInfo → Option ProcInfo
  | [] => none
  | x :: xs => if x.pid = pid then some x else findWhere pid xs

/-- rendering of the exit code in the rejection message (`null` when the
process was terminated by a signal). -/
def codeStr : Option Int → String
  | some i => toString i
  | none => "null"

/-- The final record `procFinInfo`: an `_.extend` of a fresh code field
with the record — the own fields of the record override the fresh
`code` — then the error field is set to `lastProcError` when an error
was captured. -/
def closeFinInfo (rec : ProcInfo) (exitCode : Option Int) (lastProcError : Option String) :
    ProcInfo :=
  { rec with
    code := match rec.code with | some c => some c | none => exitCode,
    error := match lastProcError with | some e => some e | none => rec.error }

structure CloseOut where
  state : PMNode
  effects : List Effect
deriving DecidableEq

/-- The close observer attached by `spawn`, for any completion mode.  In
program order: splice the record out of the registry (debug log when it
is not found); build `procFinInfo`; call `onProcessEnd` over the rpc
channel CAPTURED WHEN SPAWN RAN (`var masterRpc = this.rpc;`) when that
captured channel is non-null, with a failing call only logged; then, for
`execution` mode only, settle the deferred: reject with the captured
runtime error, reject on a non-zero (or null) exit code, resolve with
the public final record otherwise. -/
def handleClose (st : PMNode) (rec : ProcInfo) (capturedRpc : Option Nat) (mode : String)
    (exitCode : Option Int) (lastProcError : Option String) (sendFails : Bool) : CloseOut :=
  let found := foundIn rec st.processes
  let st1 := { st with processes := removeFirst rec st.processes }
  let procFinInfo := closeFinInfo rec exitCode lastProcError
  let notifyFx : List Effect :=
    match capturedRpc with
    | some chan =>
      .notifySent chan (toPublicProcInfo procFinInfo) ::
        (if sendFails then [.notifyFailLogged] else [])
    | none => [.notifySkipped]
  let settleFx : List Effect :=
    if mode = "execution" then
      match lastProcError with
      | some e => [.settleReject e]
      | none =>
        if exitCode = some 0 then
          [.settleResolve (toPublicProcInfo procFinInfo)]
        else
          [.settleReject (rec.name ++ " process exited with code: " ++ codeStr exitCode)]
    else []
  { state := st1, effects := .regRemove found :: notifyFx ++ settleFx }

/-- The `process.nextTick` progress notification of an execution-mode
spawn: skipped when an error was already captured, otherwise
`deferred.notify` with the public record view. -/
def creationTick (rec : ProcInfo) (lastProcError : Option String) : List Effect :=
  match lastProcError with
  | some _ => []
  | none => [.notifyCreated (toPublicProcInfo rec)]

/-- Options of `kill` (`signal` defaults to SIGTERM). -/
structure KillOpts where
  pid : Option Nat := none
  signal : Option String := none
deriving DecidableEq

/-- Results of `kill`, which settles its deferred synchronously: rejected with one of the
four error messages, or resolved with the public record view. -/
inductive KillResult where
  | rejected (msg : String)
  | resolved (info : ProcInfo)
deriving DecidableEq

structure KillOut where
  state : PMNode
  effects : List Effect
  result : KillResult
deriving DecidableEq

/-- Embedding of `PMNode.prototype.kill`: reject when pid is falsy (absent or 0),
when no record has the pid, when the record is protected, or when the
handle is missing (internal error); otherwise deliver the signal through
the handle and resolve with the public view.  The registry is never
touched. -/
def PMNode.kill (st : PMNode) (opts : KillOpts) : KillOut :=
  let signal := opts.signal.getD "SIGTERM"
  if opts.pid.getD 0 = 0 then
    { state := st, effects := [], result := .rejected "pid is required" }
  else
    match findWhere (opts.pid.getD 0) st.processes with
    | none => { state := st, effects := [], result := .rejected "pid not found" }
    | some procInfo =>
      if procInfo.«protected» then
        { state := st, effects := [], result := .rejected "process is protected" }
      else
        match procInfo._proc with
        | none =>
          { state := st, effects := [],
            result := .rejected "invalid procInfo object (pm-node internal error)" }
        | some hdl =>
          { state := st, effects := [.signalSent hdl signal],
            result := .resolved (toPublicProcInfo procInfo) }

/-- Result of the usage-lookup collaborator for one pid. -/
structure UsageStats where
  cpu : Nat
  memory : Nat
deriving DecidableEq

/-- One entry of the `getProcesses` answer: the public record view
merged with the looked-up usage stats. -/
structure ProcEntry where
  info : ProcInfo
  stats : UsageStats
deriving DecidableEq

/-- Model of `Q.all` over the per-record usage lookups: the first failing lookup
fails the whole call, otherwise every record yields its public view
extended with the stats. -/
def lookupAll (lookup : Nat → Except String UsageStats) :
    List ProcInfo → Except String (List ProcEntry)
  | [] => .ok []
  | info :: rest =>
    match lookup info.pid with
    | .error e => .error e
    | .ok result =>
      match lookupAll lookup rest with
      | .error e => .error e
      | .ok es => .ok ({ info := toPublicProcInfo info, stats := result } :: es)

/-- Embedding of `PMNode.prototype.getProcesses`. -/
def PMNode.getProcesses (st : PMNode) (lookup : Nat → Except String UsageStats) :
    Except String (List ProcEntry) :=
  lookupAll lookup st.processes

/-- Settlement events among an effect list. -/
def Effect.isSettle : Effect → Bool
  | .settleResolve _ => true
  | .settleReject _ => true
  | _ => false

/-- The settlement part of an effect trace. -/
def settles (fx : List Effect) : List Effect := fx.filter Effect.isSettle

/-- The record payload an effect carries to the outside, if any. -/
def Effect.payload? : Effect → Option ProcInfo
  | .notifySent _ p => some p
  | .settleResolve p => some p
  | .notifyCreated p => some p
  | _ => none

/-- One observable operation of the agent.  The close step ranges over
the records held by close observers; every such record was created by
`spawn`, hence is unprotected (see `spawnRecord`). -/
inductive Step : PMNode → PMNode → Prop
  | connect {st} (opts sockId) : Step st ((st.connect opts sockId).state)
  | sockConn {st} (muxId rpcId) : Step st (st._onRawSocketConnection muxId rpcId)
  | sockClose {st} : Step st st._onRawSocketClose
  | muxError {st} : Step st st._onMuxError
  | spawn {st} (opts launch) : Step st ((st.spawn opts launch).state)
  | kill {st} (opts) : Step st ((st.kill opts).state)
  | procClose {st} (rec capturedRpc mode exitCode lastProcError sendFails) :
      rec.«protected» = false →
      Step st ((handleClose st rec capturedRpc mode exitCode lastProcError sendFails).state)

/-- States reachable from a freshly constructed agent. -/
inductive Reachable (opts : InitOpts) (selfPid : Nat) : PMNode → Prop
  | base : Reachable opts selfPid (PMNode.init opts selfPid)
  | step {st st'} : Reachable opts selfPid st → Step st st' → Reachable opts selfPid st'

/- Helper lemmas about the registry list operations. -/

theorem removeFirst_cons_ne {x a : ProcInfo} {xs : List ProcInfo} (h : x ≠ a) :
    removeFirst a (x :: xs) = x :: removeFirst a xs := by
  simp [removeFirst, h]

theorem mem_removeFirst {y a : ProcInfo} : ∀ {l : List ProcInfo},
    y ∈ removeFirst a l → y ∈ l := by
  intro l
  induction l with
  | nil => simp [removeFirst]
  | cons x xs ih =>
    simp only [removeFirst]
    by_cases hx : x = a
    · simp only [hx, if_pos rfl]
      intro hy
      exact List.mem_cons_of_mem _ hy
    · simp only [if_neg hx, List.mem_cons]
      rintro (rfl | hy)
      · exact Or.inl rfl
      · exact Or.inr (ih hy)

theorem removeFirst_append_not_mem {a : ProcInfo} : ∀ {l : List ProcInfo},
    a ∉ l → removeFirst a (l ++ [a]) = l := by
  intro l
  induction l with
  | nil => intro _; simp [removeFirst]
  | cons x xs ih =>
    intro h
    have hx : x ≠ a := fun hxa => h (hxa ▸ List.mem_cons_self _ _)
    have hxs : a ∉ xs := fun hm => h (List.mem_cons_of_mem _ hm)
    simp only [List.cons_append, removeFirst, if_neg hx]
    exact congrArg (x :: ·) (ih hxs)

theorem findWhere_mem {pid : Nat} {r : ProcInfo} : ∀ {l : List ProcInfo},
    findWhere pid l = some r → r ∈ l := by
  intro l
  induction l with
  | nil => simp [findWhere]
  | cons x xs ih =>
    simp only [findWhere]
    by_cases hx : x.pid = pid
    · simp only [if_pos hx]
      intro h
      cases h
      exact List.mem_cons_self _ _
    · simp only [if_neg hx]
      intro h
      exact List.mem_cons_of_mem _ (ih h)

theorem filter_protected_nil {l : List ProcInfo}
    (h : ∀ r ∈ l, r.«protected» = false) :
    l.filter (fun r => r.«protected») = [] := by
  induction l with
  | nil => rfl
  | cons x xs ih =>
    have hx := h x (List.mem_cons_self _ _)
    simp only [List.filter, hx]
    exact ih (fun r hr => h r (List.mem_cons_of_mem _ hr))

/-- C2. A spawn request whose launch fails (the spawn collaborator
throws, e.g. executable missing), under the default completion mode:
the state is untouched (no record added) and the returned promise is
RESOLVED with the error value (`return new Q(err)`), not rejected; the
result carries no record and no close observer exists, so no
`onProcessEnd` can ever be issued for it.  The claim says the operation
fails (rejects); the code resolves instead — the spec itself flags this
resolve-with-Error pattern as a source bug. -/
theorem C2_launch_failure_resolves_error (st : PMNode) (msg : String) :
    st.spawn { command := some "missing-binary" } (.throws msg)
      = { state := st, result := .fulfilledError msg } := by
  simp [PMNode.spawn, truthyStr]

/-- C3. Calling `connect` while the agent already holds a session
(`this.rpc` set, as after a successful connection): the state is
returned untouched — no new socket, no field modified — but the returned
promise is RESOLVED with the Error value, message client is conencted,
(`return new Q(new Error(...))`), not rejected as the claim states. -/
theorem C3_connect_when_connected (st : PMNode) (r sockId : Nat) (opts : ConnectOpts) :
    ({ st with rpc := some r } : PMNode).connect opts sockId
      = { state := { st with rpc := some r },
          result := .fulfilledError "client is conencted" } := by
  simp [PMNode.connect]

/-- C4. Spawn validation failures: a missing command (absent or empty,
both falsy), or a completion mode outside creation/execution (shown at
the value "both"), return with the state untouched and the launch
outcome never consulted (the same result for every launch outcome, so no
OS process is started) — but the returned promise is RESOLVED with the
usage Error value, not rejected as the claim states. -/
theorem C4_spawn_validation_resolves_error (st : PMNode) (launch : LaunchOutcome)
    (args : List String) (nm cid sout serr : Option String) (pr : Option String) :
    (st.spawn { command := none, args := args, name := nm, coreId := cid,
                promise := pr, stdout := sout, stderr := serr } launch
      = { state := st, result := .fulfilledError "command is required" })
    ∧ (st.spawn { command := some "", args := args, name := nm, coreId := cid,
                  promise := pr, stdout := sout, stderr := serr } launch
      = { state := st, result := .fulfilledError "command is required" })
    ∧ (st.spawn { command := some "x", args := args, name := nm, coreId := cid,
                  promise := some "both", stdout := sout, stderr := serr } launch
      = { state := st, result := .fulfilledError "promise type both is not supported" }) := by
  refine ⟨?_, ?_, ?_⟩ <;> cases launch <;> simp [PMNode.spawn, truthyStr]

/-- C10. The confirmed hazard: a spawn request with completionMode
execution and a stdout stream label, issued while no Session exists
(`this.mux` is null on a fresh agent): `spawn` throws synchronously out
of the `this.mux.createStream` dereference instead of returning a
promise, and at that moment the freshly created record has already been
pushed into the Registry. -/
theorem C10_stream_label_without_session_throws :
    (PMNode.init ⟨"host", 4000⟩ 1).mux = none
    ∧ ((PMNode.init ⟨"host", 4000⟩ 1).spawn
          { command := some "/bin/cat", promise := some "execution", stdout := some "out" }
          (.ok 7)).result
        = .thrown "cannot call createStream of null"
            (spawnRecord { command := some "/bin/cat", promise := some "execution",
                           stdout := some "out" } 7)
            none "execution"
    ∧ ((PMNode.init ⟨"host", 4000⟩ 1).spawn
          { command := some "/bin/cat", promise := some "execution", stdout := some "out" }
          (.ok 7)).state.processes
        = [selfRecord 1,
           spawnRecord { command := some "/bin/cat", promise := some "execution",
                         stdout := some "out" } 7] := by
  refine ⟨rfl, ?_, ?_⟩ <;> decide

/-- The settlement part of the effect trace of a close handler: empty unless
the completion mode is execution, in which case it rejects on a captured
runtime error, rejects on a non-zero (or null) exit code, and resolves
with the public final record on exit code 0. -/
theorem settles_handleClose (st : PMNode) (rec : ProcInfo) (capturedRpc : Option Nat)
    (mode : String) (exitCode : Option Int) (lastProcError : Option String) (sendFails : Bool) :
    settles (handleClose st rec capturedRpc mode exitCode lastProcError sendFails).effects
      = if mode = "execution" then
          match lastProcError with
          | some e => [.settleReject e]
          | none =>
            if exitCode = some 0 then
              [.settleResolve (toPublicProcInfo (closeFinInfo rec exitCode none))]
            else
              [.settleReject (rec.name ++ " process exited with code: " ++ codeStr exitCode)]
        else [] := by
  cases capturedRpc <;> cases lastProcError <;> cases sendFails <;>
    by_cases h : mode = "execution" <;> by_cases h2 : exitCode = some 0 <;>
      simp [handleClose, settles, Effect.isSettle, h, h2]

/-- C1.  A spawn request with completionMode execution whose launch
succeeds (and whose stream labels, if any, can be served by a present
multiplexer; the labelless case needs no session): the returned promise
is pending, the record is pushed; when the close observer later runs the
record is removed from the Registry (it is gone once the operation
settles), and the settlement is: reject with the captured runtime error
if one was observed, reject on a non-zero (or null) exit code, and
resolve with the public final record — whose exit code is 0 — otherwise. -/
theorem C1_execution_mode (st : PMNode) (opts : SpawnOpts) (pid : Nat)
    (exitCode : Option Int) (lastProcError : Option String) (sendFails : Bool)
    (hcmd : truthyStr opts.command = true)
    (hmode : opts.promise = some "execution")
    (hstreams : (truthyStr opts.stdout = false ∧ truthyStr opts.stderr = false)
      ∨ st.mux.isSome = true)
    (hfresh : ∀ r ∈ st.processes, r.pid ≠ pid) :
    st.spawn opts (.ok pid)
        = { state := { st with processes := st.processes ++ [spawnRecord opts pid] },
            result := .ret (spawnRecord opts pid) st.rpc "execution" .pending }
    ∧ (handleClose { st with processes := st.processes ++ [spawnRecord opts pid] }
          (spawnRecord opts pid) st.rpc "execution" exitCode lastProcError sendFails).state.processes
        = st.processes
    ∧ spawnRecord opts pid
        ∉ (handleClose { st with processes := st.processes ++ [spawnRecord opts pid] }
            (spawnRecord opts pid) st.rpc "execution" exitCode lastProcError sendFails).state.processes
    ∧ settles (handleClose { st with processes := st.processes ++ [spawnRecord opts pid] }
          (spawnRecord opts pid) st.rpc "execution" exitCode lastProcError sendFails).effects
        = (match lastProcError with
           | some e => [.settleReject e]
           | none =>
             if exitCode = some 0 then
               [.settleResolve (toPublicProcInfo (closeFinInfo (spawnRecord opts pid) exitCode none))]
             else
               [.settleReject ((spawnRecord opts pid).name
                 ++ " process exited with code: " ++ codeStr exitCode)])
    ∧ (toPublicProcInfo (closeFinInfo (spawnRecord opts pid) (some 0) none)).code = some 0 := by
  have hnotmem : spawnRecord opts pid ∉ st.processes := by
    intro hm
    exact hfresh _ hm rfl
  have hstate : (handleClose { st with processes := st.processes ++ [spawnRecord opts pid] }
      (spawnRecord opts pid) st.rpc "execution" exitCode lastProcError sendFails).state.processes
      = st.processes := by
    show removeFirst (spawnRecord opts pid) (st.processes ++ [spawnRecord opts pid])
      = st.processes
    exact removeFirst_append_not_mem hnotmem
  refine ⟨?_, hstate, ?_, ?_, rfl⟩
  · unfold PMNode.spawn
    rw [hmode]
    rcases hstreams with ⟨h1, h2⟩ | h3
    · simp [hcmd, h1, h2]
    · have hmux : st.mux ≠ none := by
        intro hn
        rw [hn] at h3
        exact Bool.noConfusion h3
      simp [hcmd, hmux]
  · rw [hstate]
    exact hnotmem
  · rw [settles_handleClose]
    simp

/-- C1 witness: a concrete execution-mode spawn on a fresh agent returns
a pending operation carrying the pushed record. -/
theorem C1_execution_mode_witness :
    (PMNode.init ⟨"h", 1⟩ 1).spawn
        { command := some "/bin/true", promise := some "execution" } (.ok 7)
      = { state := { PMNode.init ⟨"h", 1⟩ 1 with
            processes := (PMNode.init ⟨"h", 1⟩ 1).processes
              ++ [spawnRecord { command := some "/bin/true", promise := some "execution" } 7] },
          result := .ret (spawnRecord { command := some "/bin/true", promise := some "execution" } 7)
            none "execution" .pending } :=
  (C1_execution_mode (PMNode.init ⟨"h", 1⟩ 1)
    { command := some "/bin/true", promise := some "execution" } 7 (some 0) none false
    (by decide) rfl (Or.inl (by decide)) (by decide)).1

/-- C5 counterexample: a close event handled while a Session exists
(`this.rpc = some 1`), for a record spawned while disconnected (the
captured rpc was null): the close handler consults only the captured
channel, so no `onProcessEnd` is sent, refuting "whenever a Session
exists at the moment the close event is handled, an onProcessEnd
notification is sent". -/
theorem C5_counterexample_session_at_close :
    ({ serverHost := "h", serverPort := 1,
       processes := [selfRecord 1, spawnRecord { command := some "x" } 5],
       rawSocket := some 0, mux := some 0, rpc := some 1 } : PMNode).rpc.isSome = true
    ∧ (handleClose
        { serverHost := "h", serverPort := 1,
          processes := [selfRecord 1, spawnRecord { command := some "x" } 5],
          rawSocket := some 0, mux := some 0, rpc := some 1 }
        (spawnRecord { command := some "x" } 5) none "creation" (some 0) none false).effects
      = [.regRemove true, .notifySkipped] := by
  exact ⟨rfl, by decide⟩

/-- C5 (amended).  For every close event, in every completion mode: the
removal of the record from the Registry is the FIRST effect of the handler
(so it happens before any `onProcessEnd` is sent), and the resulting
state already has the record removed; an `onProcessEnd` notification
carrying the public final record view (exit code and captured error
included, handle excluded) is sent exactly when the rpc channel CAPTURED
AT SPAWN TIME is present — not when a Session exists at close time — and
it is sent through that captured channel; a failure of that send changes
neither the resulting state nor the settlement (it is only logged). -/
theorem C5_close_order_and_notify (st : PMNode) (rec : ProcInfo) (capturedRpc : Option Nat)
    (mode : String) (exitCode : Option Int) (lastProcError : Option String) (sendFails : Bool) :
    (handleClose st rec capturedRpc mode exitCode lastProcError sendFails).state.processes
        = removeFirst rec st.processes
    ∧ (∃ rest, (handleClose st rec capturedRpc mode exitCode lastProcError sendFails).effects
        = .regRemove (foundIn rec st.processes) :: rest)
    ∧ (∀ chan, capturedRpc = some chan →
        Effect.notifySent chan (toPublicProcInfo (closeFinInfo rec exitCode lastProcError))
          ∈ (handleClose st rec capturedRpc mode exitCode lastProcError sendFails).effects)
    ∧ (capturedRpc = none → ∀ chan payload,
        Effect.notifySent chan payload
          ∉ (handleClose st rec capturedRpc mode exitCode lastProcError sendFails).effects)
    ∧ (handleClose st rec capturedRpc mode exitCode lastProcError true).state
        = (handleClose st rec capturedRpc mode exitCode lastProcError false).state
    ∧ settles (handleClose st rec capturedRpc mode exitCode lastProcError true).effects
        = settles (handleClose st rec capturedRpc mode exitCode lastProcError false).effects := by
  refine ⟨rfl, ⟨_, rfl⟩, ?_, ?_, rfl, ?_⟩
  · intro chan hchan
    subst hchan
    simp [handleClose]
  · intro hnone chan payload
    subst hnone
    by_cases h : mode = "execution" <;>
      cases lastProcError <;>
        by_cases h2 : exitCode = some 0 <;>
          simp [handleClose, h, h2]
  · rw [settles_handleClose, settles_handleClose]

/-- C5 witness: for a concrete close with a captured channel, the
notification through that channel is among the effects of the handler. -/
theorem C5_close_order_and_notify_witness :
    Effect.notifySent 2 (toPublicProcInfo (closeFinInfo (spawnRecord { command := some "x" } 5) (some 0) none))
      ∈ (handleClose (PMNode.init ⟨"h", 1⟩ 1) (spawnRecord { command := some "x" } 5)
          (some 2) "creation" (some 0) none false).effects :=
  (C5_close_order_and_notify (PMNode.init ⟨"h", 1⟩ 1) (spawnRecord { command := some "x" } 5)
    (some 2) "creation" (some 0) none false).2.2.1 2 rfl

/- Frame lemmas: which operations leave the registry list untouched. -/

theorem selfRecord_protected (selfPid : Nat) : (selfRecord selfPid).«protected» = true := rfl

theorem spawnRecord_unprotected (opts : SpawnOpts) (pid : Nat) :
    (spawnRecord opts pid).«protected» = false := rfl

theorem connect_processes (st : PMNode) (opts : ConnectOpts) (sockId : Nat) :
    (st.connect opts sockId).state.processes = st.processes := by
  unfold PMNode.connect
  split
  · rfl
  split <;> rfl

theorem sockConn_processes (st : PMNode) (muxId rpcId : Nat) :
    (st._onRawSocketConnection muxId rpcId).processes = st.processes := by
  unfold PMNode._onRawSocketConnection
  split
  · rfl
  split
  · rfl
  split <;> rfl

theorem kill_state (st : PMNode) (opts : KillOpts) : (st.kill opts).state = st := by
  unfold PMNode.kill
  dsimp only
  split
  · rfl
  split
  · rfl
  split
  · rfl
  split <;> rfl

theorem spawn_state_cases (st : PMNode) (opts : SpawnOpts) (launch : LaunchOutcome) :
    (st.spawn opts launch).state = st ∨
      ∃ pid, (st.spawn opts launch).state
        = { st with processes := st.processes ++ [spawnRecord opts pid] } := by
  unfold PMNode.spawn
  dsimp only
  split
  · split
    · cases launch with
      | throws msg => exact Or.inl rfl
      | ok pid =>
        right
        refine ⟨pid, ?_⟩
        dsimp only
        split
        · rfl
        split
        · rfl
        split <;> rfl
    · exact Or.inl rfl
  · exact Or.inl rfl

/-- The registry invariant: the protected self record heads the list and
every other record is unprotected. -/
def ProtectedInv (selfPid : Nat) (st : PMNode) : Prop :=
  ∃ rest, st.processes = selfRecord selfPid :: rest ∧ ∀ r ∈ rest, r.«protected» = false

theorem step_preserves {selfPid : Nat} {st st' : PMNode}
    (hinv : ProtectedInv selfPid st) (hs : Step st st') : ProtectedInv selfPid st' := by
  obtain ⟨rest, hps, hrest⟩ := hinv
  cases hs with
  | connect opts sockId =>
    exact ⟨rest, by rw [connect_processes, hps], hrest⟩
  | sockConn muxId rpcId =>
    exact ⟨rest, by rw [sockConn_processes, hps], hrest⟩
  | sockClose => exact ⟨rest, hps, hrest⟩
  | muxError => exact ⟨rest, hps, hrest⟩
  | spawn opts launch =>
    rcases spawn_state_cases st opts launch with h | ⟨pid, h⟩
    · exact ⟨rest, by rw [h, hps], hrest⟩
    · refine ⟨rest ++ [spawnRecord opts pid], by rw [h]; dsimp only; rw [hps]; rfl, ?_⟩
      intro r hr
      rcases List.mem_append.mp hr with hr1 | hr2
      · exact hrest r hr1
      · rw [List.mem_singleton.mp hr2]
        exact spawnRecord_unprotected opts pid
  | kill opts =>
    exact ⟨rest, by rw [kill_state, hps], hrest⟩
  | procClose rec capturedRpc mode exitCode lastProcError sendFails hrec =>
    have hne : selfRecord selfPid ≠ rec := by
      intro he
      rw [← he, selfRecord_protected] at hrec
      exact Bool.noConfusion hrec
    refine ⟨removeFirst rec rest, ?_, ?_⟩
    · show removeFirst rec st.processes = _
      rw [hps, removeFirst_cons_ne hne]
    · intro r hr
      exact hrest r (mem_removeFirst hr)

theorem reachable_inv {opts : InitOpts} {selfPid : Nat} {st : PMNode}
    (h : Reachable opts selfPid st) : ProtectedInv selfPid st := by
  induction h with
  | base => exact ⟨[], rfl, by intro r hr; cases hr⟩
  | step hr hs ih => exact step_preserves ih hs

/-- C6.  In every reachable state of the agent — after construction and
any sequence of connect, socket/mux events, spawn, kill and close
handling — the records marked protected are exactly the one self entry
created at construction: no operation removes it and none marks another
record protected. -/
theorem C6_unique_protected (opts : InitOpts) (selfPid : Nat) (st : PMNode)
    (h : Reachable opts selfPid st) :
    st.processes.filter (fun r => r.«protected») = [selfRecord selfPid] := by
  obtain ⟨rest, hps, hrest⟩ := reachable_inv h
  rw [hps, List.filter_cons]
  simp only [selfRecord_protected, if_true]
  rw [filter_protected_nil hrest]

/-- C6 witness: the invariant evaluated on the freshly constructed
agent. -/
theorem C6_unique_protected_witness :
    (PMNode.init ⟨"h", 1⟩ 1).processes.filter (fun r => r.«protected») = [selfRecord 1] :=
  C6_unique_protected ⟨"h", 1⟩ 1 _ Reachable.base

/-- C7.  In every reachable state, a kill request aimed at the own pid
of the agent — whatever the signal — is rejected with the protection error,
delivers no signal (empty effect list) and leaves the state untouched:
the protected self record always heads the registry, so the pid lookup
finds it first and the protection check fires. -/
theorem C7_kill_protected (opts : InitOpts) (selfPid : Nat) (st : PMNode) (sig : Option String)
    (h : Reachable opts selfPid st) (hp : selfPid ≠ 0) :
    st.kill { pid := some selfPid, signal := sig }
      = { state := st, effects := [], result := .rejected "process is protected" } := by
  obtain ⟨rest, hps, hrest⟩ := reachable_inv h
  unfold PMNode.kill
  dsimp only
  rw [if_neg (by simpa using hp)]
  rw [show Option.getD (some selfPid) 0 = selfPid from rfl, hps]
  rw [show findWhere selfPid (selfRecord selfPid :: rest) = some (selfRecord selfPid) from by
    simp [findWhere, selfRecord]]
  dsimp only
  rw [if_pos (selfRecord_protected selfPid)]

/-- C7 witness: killing pid 1 on an agent constructed with self pid 1 is
rejected with the protection error. -/
theorem C7_kill_protected_witness :
    (PMNode.init ⟨"h", 1⟩ 1).kill { pid := some 1, signal := some "SIGKILL" }
      = { state := PMNode.init ⟨"h", 1⟩ 1, effects := [],
          result := .rejected "process is protected" } :=
  C7_kill_protected ⟨"h", 1⟩ 1 _ (some "SIGKILL") Reachable.base (by decide)

/-- C8.  A kill request whose pid resolves (first match) to an
unprotected record with a present handle: the signal — the given one, or
SIGTERM by default — is delivered through the handle, the operation
resolves with the public record view, and the registry is returned
untouched with the record still in it (kill removes nothing; removal
happens only in the close observer). -/
theorem C8_kill_delivers (st : PMNode) (pid : Nat) (sig : Option String) (rec : ProcInfo)
    (hdl : Nat)
    (hpid : pid ≠ 0)
    (hfind : findWhere pid st.processes = some rec)
    (hprot : rec.«protected» = false)
    (hproc : rec._proc = some hdl) :
    st.kill { pid := some pid, signal := sig }
      = { state := st, effects := [.signalSent hdl (sig.getD "SIGTERM")],
          result := .resolved (toPublicProcInfo rec) }
    ∧ rec ∈ st.processes := by
  refine ⟨?_, findWhere_mem hfind⟩
  unfold PMNode.kill
  dsimp only
  rw [if_neg (by simpa using hpid)]
  rw [show Option.getD (some pid) 0 = pid from rfl, hfind]
  dsimp only
  rw [if_neg (by simp [hprot])]
  rw [hproc]

/-- C8 witness: a concrete kill of a spawned record with the default
signal. -/
theorem C8_kill_delivers_witness :
    ({ serverHost := "h", serverPort := 1,
       processes := [selfRecord 1, spawnRecord { command := some "x" } 5] } : PMNode).kill
        { pid := some 5 }
      = { state := { serverHost := "h", serverPort := 1, processes := [selfRecord 1, spawnRecord { command := some "x" } 5] },
          effects := [.signalSent 5 "SIGTERM"],
          result := .resolved (toPublicProcInfo (spawnRecord { command := some "x" } 5)) } :=
  (C8_kill_delivers _ 5 none (spawnRecord { command := some "x" } 5) 5
    (by decide) (by decide) rfl rfl).1

/- Handle-leak predicates: a public payload is handle-free when its
`_proc` field is absent. -/

/-- The creation-mode fulfillment payload of a spawn result, when there
is one, carries no handle. -/
def SpawnResult.handleFree : SpawnResult → Bool
  | .ret _ _ _ (.fulfilledInfo info) => info._proc.isNone
  | _ => true

/-- The resolution payload of a kill result, when there is one, carries
no handle. -/
def KillResult.handleFree : KillResult → Bool
  | .resolved info => info._proc.isNone
  | _ => true

/-- The record payload of an effect, when there is one, carries no
handle. -/
def Effect.handleFreeB (e : Effect) : Bool :=
  match e.payload? with
  | some q => q._proc.isNone
  | none => true

/-- Every entry of a successful getProcesses answer carries no handle. -/
def entriesHandleFree : Except String (List ProcEntry) → Bool
  | .ok es => es.all (fun e => e.info._proc.isNone)
  | .error _ => true

theorem lookupAll_handleFree (lookup : Nat → Except String UsageStats) (l : List ProcInfo) :
    entriesHandleFree (lookupAll lookup l) = true := by
  induction l with
  | nil => rfl
  | cons info rest ih =>
    unfold lookupAll
    cases lookup info.pid with
    | error e => rfl
    | ok result =>
      dsimp only
      cases hr : lookupAll lookup rest with
      | error e => rfl
      | ok es =>
        rw [hr] at ih
        simp only [entriesHandleFree, List.all_cons, Bool.and_eq_true] at ih ⊢
        exact ⟨rfl, ih⟩

/-- C9.  No public output of the agent leaks the owned process handle:
`toPublicProcInfo` always strips `_proc`; the creation-mode fulfillment
payload of any spawn, the resolution payload of any kill, every entry of
any successful getProcesses answer, every record payload carried by a
effects of a close handler (the `onProcessEnd` payload and the
execution-mode settlement payload), and the nextTick creation
notification payload are all handle-free. -/
theorem C9_no_handle_leak (p : ProcInfo) (st st2 : PMNode) (opts : SpawnOpts)
    (launch : LaunchOutcome) (kopts : KillOpts) (lookup : Nat → Except String UsageStats)
    (rec2 : ProcInfo) (capturedRpc : Option Nat) (mode : String) (exitCode : Option Int)
    (lastProcError : Option String) (sendFails : Bool) :
    (toPublicProcInfo p)._proc = none
    ∧ (st.spawn opts launch).result.handleFree = true
    ∧ (st.kill kopts).result.handleFree = true
    ∧ entriesHandleFree (st.getProcesses lookup) = true
    ∧ ((handleClose st2 rec2 capturedRpc mode exitCode lastProcError sendFails).effects.all
        Effect.handleFreeB) = true
    ∧ (creationTick rec2 lastProcError).all Effect.handleFreeB = true := by
  refine ⟨rfl, ?_, ?_, lookupAll_handleFree lookup st.processes, ?_, ?_⟩
  · unfold PMNode.spawn
    dsimp only
    split
    · split
      · cases launch with
        | throws msg => rfl
        | ok pid =>
          dsimp only
          split
          · rfl
          split
          · rfl
          split <;> rfl
      · rfl
    · rfl
  · unfold PMNode.kill
    dsimp only
    split
    · rfl
    split
    · rfl
    split
    · rfl
    split <;> rfl
  · cases capturedRpc <;> cases lastProcError <;> cases sendFails <;>
      by_cases h : mode = "execution" <;> by_cases h2 : exitCode = some 0 <;>
        simp [handleClose, Effect.handleFreeB, Effect.payload?, toPublicProcInfo, h, h2]
  · cases lastProcError <;> rfl
